import Mathlib

/-!
Shallow embedding of `iam_member_report.py` (repository
`gcp-iam-member-report`): the data model, the pure helpers and the
`run` procedure (organization validation, optional org-policy fetch,
folder-hierarchy walk, project join, report write).

External API calls (`cloudresourcemanager` v1/v2) are modelled by an
explicit environment `Env` that answers every request deterministically.
The two unbounded `while` loops of the folder walk are modelled with a
fuel parameter; a run that exhausts every fuel bound denotes divergence
of the Python loop.
-/

set_option autoImplicit false

namespace IamReport

/-- Python `str.split(sep)` on the character list of the string: splits on
every occurrence of `sep`, keeping empty segments, exactly as
`member.split(':')` and `fname.split('/')` behave in the source. -/
def pySplitAux (sep : Char) (acc : List Char) : List Char → List (List Char)
  | [] => [acc.reverse]
  | c :: cs =>
    if c = sep then acc.reverse :: pySplitAux sep [] cs
    else pySplitAux sep (c :: acc) cs

/-- `typ, mem = member.split(':')` — the tuple unpacking succeeds exactly
when the split yields two segments (exactly one `':'` in the string); any
other shape raises an uncaught `ValueError` in the source, modelled as
`none`. The first component is the principal type (before the colon), the
second the identifier. -/
def splitMember (s : String) : Option (String × String) :=
  match pySplitAux ':' [] s.data with
  | [t, m] => some (⟨t⟩, ⟨m⟩)
  | _ => none

/-- Python `str.lower()`, character by character (only ASCII matters for
the `lifecycleState` comparison in the source). -/
def pyLower (s : String) : String :=
  ⟨s.data.map Char.toLower⟩

/-- One IAM policy binding: a role and its member strings
(`binding['role']`, `binding.get('members', [])`). -/
structure Binding where
  role : String
  members : List String
deriving Repr, DecidableEq

/-- An IAM policy document as used by the source: its list of bindings
(`iam.get('bindings', [])`). -/
structure Policy where
  bindings : List Binding
deriving Repr, DecidableEq

/-- A project record as consumed by the source: `project['projectId']`,
`project['lifecycleState']`, and `project.get('parent', {}).get('id')`
collapsed into an optional parent id. -/
structure ProjectRecord where
  projectId : String
  lifecycleState : String
  parentId : Option String
deriving Repr, DecidableEq

/-- One output row
`(mem, typ, role, org_id, folder_id, project_id)` of `final_results`. -/
structure Row where
  member : String
  memberType : String
  role : String
  org_id : String
  folder_id : String
  project_id : String
deriving Repr, DecidableEq

/-- The location a policy was fetched from, deciding which of the three
location columns of a row is populated. -/
inductive Loc where
  | org (id : String)
  | folder (id : String)
  | project (id : String)
deriving Repr, DecidableEq

/-- The identifier carried by a location tag. -/
def Loc.locId : Loc → String
  | .org i => i
  | .folder i => i
  | .project i => i

/-- Row construction as in the source: org rows are
`(mem, typ, role, org_id, '', '')`, folder rows `(…, '', fid, '')`,
project rows `(…, '', '', pid)`. -/
def mkRow (mem typ role : String) : Loc → Row
  | .org i => ⟨mem, typ, role, i, "", ""⟩
  | .folder i => ⟨mem, typ, role, "", i, ""⟩
  | .project i => ⟨mem, typ, role, "", "", i⟩

/-- The inner member loop of the flattener:
`for member in binding.get('members', []): typ, mem = member.split(':') …`.
`none` models the uncaught `ValueError` on a member string without exactly
one colon. -/
def flattenBinding (role : String) (loc : Loc) : List String → Option (List Row)
  | [] => some []
  | m :: ms =>
    match splitMember m, flattenBinding role loc ms with
    | some (t, i), some rest => some (mkRow i t role loc :: rest)
    | _, _ => none

/-- The binding loop of the flattener:
`for binding in iam.get('bindings', []) …`, appending one row per member
of each binding, in order. -/
def flattenPolicy (loc : Loc) : List Binding → Option (List Row)
  | [] => some []
  | b :: bs =>
    match flattenBinding b.role loc b.members, flattenPolicy loc bs with
    | some r, some rest => some (r ++ rest)
    | _, _ => none

/-! ### The run model -/

/-- One page of a `folders().list` response: the folder resource names
(`folder['name']`) and whether `list_next` yields a further request. -/
structure FolderPage where
  folders : List String
  hasNext : Bool
deriving Repr, DecidableEq

/-- The organization record; the source only reads `org['name']`. -/
structure OrgRec where
  name : String
deriving Repr, DecidableEq

/-- Deterministic environment answering every API call of `run`:
`organizations().get`, the drained `projects().list`,
`organizations().getIamPolicy`, `folders().list` (by parent resource name
and page index), `folders().getIamPolicy` and `projects().getIamPolicy`.
An `Except.error` models an `HttpError` raised by `execute()`. -/
structure Env where
  org : Except String OrgRec
  projects : List ProjectRecord
  orgPolicy : Except String Policy
  folderList : String → Nat → Except String FolderPage
  folderPolicy : String → Except String Policy
  projectPolicy : String → Except String Policy

/-- Externally observable effects of a run, in order: API fetches and the
opening of the output file. -/
inductive Effect where
  | orgGet
  | projList
  | orgPolicyGet
  | folderListCall (parent : String)
  | folderPolicyGet (fname : String)
  | projectPolicyGet (pid : String)
  | fileOpen
deriving Repr, DecidableEq

/-- The mutable state of `run`: the `_ERROR` flag, `final_results`,
the visited-folder-id set `folders`, the work `stack`, the two output
streams and the effect trace. -/
structure St where
  degraded : Bool
  rows : List Row
  folders : List String
  stack : List String
  stdout : List String
  stderr : List String
  trace : List Effect
deriving Repr, DecidableEq

/-- Result of a piece of the run: normal continuation, an uncaught
exception (`ValueError`/`IndexError`), or divergence (fuel exhausted on
an unbounded loop). -/
inductive StepRes (α : Type) where
  | ok (a : α)
  | crash
  | diverged
deriving Repr, DecidableEq

/-- Sequencing of run pieces; crash and divergence propagate. -/
def StepRes.bind {α β : Type} : StepRes α → (α → StepRes β) → StepRes β
  | .ok a, f => f a
  | .crash, _ => .crash
  | .diverged, _ => .diverged

/-- Python truthiness of the optional `folder_id` argument
(`if folder_id:`): `None` and the empty string are falsy. -/
def pyTruthy : Option String → Bool
  | none => false
  | some s => !s.isEmpty

/-- Rendering of the optional `folder_id` inside an f-string:
`None` prints as `"None"`. -/
def pyShow : Option String → String
  | none => "None"
  | some s => s

/-- The org-policy branch taken when no folder restriction is given:
fetch the organization's IAM policy; on `HttpError` set `_ERROR`, print
the (mislabelled) message to stderr and go on; otherwise flatten into
org-tagged rows. -/
def orgPolicyStep (env : Env) (folderId : Option String) (orgId : String)
    (st : St) : StepRes St :=
  let st := { st with trace := st.trace ++ [Effect.orgPolicyGet] }
  match env.orgPolicy with
  | .error e =>
    .ok { st with degraded := true,
                  stderr := st.stderr ++
                    ["Error getting org folder \"" ++ pyShow folderId ++
                     "\" IAM policy: " ++ e] }
  | .ok iam =>
    match flattenPolicy (.org orgId) iam.bindings with
    | none => .crash
    | some rs => .ok { st with rows := st.rows ++ rs }

/-- Processing of one folder discovered in a listing page:
`fid = fname.split('/')[1]` (an `IndexError` crashes), push the folder on
the stack, add `fid` to the visited set, then fetch its IAM policy — on
`HttpError` set `_ERROR` and print the message WITHOUT `file=sys.stderr`
(so it goes to stdout) and continue; otherwise flatten into
folder-tagged rows. -/
def procFolder (env : Env) (fname : String) (st : St) : StepRes St :=
  match (pySplitAux '/' [] fname.data).get? 1 with
  | none => .crash
  | some fidChars =>
    let fid : String := ⟨fidChars⟩
    let st := { st with stack := fname :: st.stack,
                        folders := st.folders.insert fid,
                        trace := st.trace ++ [Effect.folderPolicyGet fname] }
    match env.folderPolicy fname with
    | .error e =>
      .ok { st with degraded := true,
                    stdout := st.stdout ++
                      ["Error getting folder \"" ++ fid ++ " IAM: " ++ e] }
    | .ok iam =>
      match flattenPolicy (.folder fid) iam.bindings with
      | none => .crash
      | some rs => .ok { st with rows := st.rows ++ rs }

/-- The `for folder in response.get('folders', [])` loop over one page. -/
def procFolderList (env : Env) : List String → St → StepRes St
  | [], st => .ok st
  | f :: fs, st => (procFolder env f st).bind (procFolderList env fs)

/-- The inner pagination loop `while request:` for one stack entry.
On `HttpError` the source sets `_ERROR`, prints to stderr and executes
`continue` — which retries the SAME request, so a persistently failing
listing never leaves this loop (fuel exhaustion). On success it processes
the page's folders and follows `list_next` while a next page exists. -/
def pageLoop (env : Env) (current : String) : Nat → Nat → St → StepRes St
  | _, 0, _ => .diverged
  | page, fuel + 1, st =>
    let st := { st with stdout := st.stdout ++ ["Getting folders..."],
                        trace := st.trace ++ [Effect.folderListCall current] }
    match env.folderList current page with
    | .error e =>
      pageLoop env current page fuel
        { st with degraded := true,
                  stderr := st.stderr ++
                    ["Error getting child folders of \"" ++ current ++
                     "\": " ++ e] }
    | .ok pg =>
      (procFolderList env pg.folders st).bind fun st' =>
        if pg.hasNext then pageLoop env current (page + 1) fuel st'
        else .ok st'

/-- The outer walk loop `while stack:`: pop a parent, run its pagination
loop, repeat until the stack is empty. -/
def walkLoop (env : Env) : Nat → St → StepRes St
  | fuel, st =>
    match st.stack with
    | [] => .ok st
    | current :: rest =>
      match fuel with
      | 0 => .diverged
      | fuel + 1 =>
        (pageLoop env current 0 fuel { st with stack := rest }).bind
          (walkLoop env fuel)

/-- Membership test `x in folders` for the possibly-absent parent id:
`None` is never a member of the visited-folder-id set. -/
def optMemb : Option String → List String → Bool
  | none, _ => false
  | some s, l => l.contains s

/-- The project-selection condition of the source:
`project['lifecycleState'].lower() == 'active' and
(parent.get('id') == org_id or parent.get('id') in folders)`. -/
def selected (orgId : String) (folders : List String) (p : ProjectRecord) : Bool :=
  (pyLower p.lifecycleState == "active") &&
    (p.parentId == some orgId || optMemb p.parentId folders)

/-- Processing of one project record: if selected, fetch its IAM policy —
on `HttpError` set `_ERROR`, print to stderr and continue; otherwise
flatten into project-tagged rows. An unselected project leaves the state
untouched. -/
def procProject (env : Env) (orgId : String) (folders : List String)
    (p : ProjectRecord) (st : St) : StepRes St :=
  if selected orgId folders p then
    let st := { st with trace := st.trace ++ [Effect.projectPolicyGet p.projectId] }
    match env.projectPolicy p.projectId with
    | .error e =>
      .ok { st with degraded := true,
                    stderr := st.stderr ++ ["Error getting project IAM: " ++ e] }
    | .ok iam =>
      match flattenPolicy (.project p.projectId) iam.bindings with
      | none => .crash
      | some rs => .ok { st with rows := st.rows ++ rs }
  else .ok st

/-- The `for project in projects:` loop, joined against the final
visited-folder-id set. -/
def procProjects (env : Env) (orgId : String) (folders : List String) :
    List ProjectRecord → St → StepRes St
  | [], st => .ok st
  | p :: ps, st => (procProject env orgId folders p st).bind
      (procProjects env orgId folders ps)

/-- Initial run state after the organization was validated and the
project listing drained. -/
def initSt : St :=
  { degraded := false, rows := [], folders := [], stack := [],
    stdout := ["Validating organization...", "Getting projects..."],
    stderr := [], trace := [Effect.orgGet, Effect.projList] }

/-- The report-writing tail of a completed run: progress messages, the
caveat when `_ERROR` is set, and the opening of the output file. -/
def finalize (st : St) : St :=
  let caveat : List String :=
    if st.degraded then
      ["There were errors while generating the report; it may not " ++
       "be completely accurate."]
    else []
  { st with
      stdout := st.stdout ++ ["Writing file \"iam_members.csv\"", "Done."] ++ caveat,
      trace := st.trace ++ [Effect.fileOpen] }

/-- Overall outcome of a run: the fatal `SystemExit` of the organization
lookup (with its message and the effects already performed), an uncaught
exception, divergence, or normal completion with the final state. -/
inductive Outcome where
  | fatal (msg : String) (trace : List Effect)
  | crash
  | diverged
  | finished (st : St)
deriving Repr, DecidableEq

/-- The process exit status produced by `sys.exit(run(...))` — `run`
returns `_ERROR` (`None` or `True`), `SystemExit(msg)` and an uncaught
exception both exit 1; divergence never exits. -/
def Outcome.exitCodeOf : Outcome → Option Nat
  | .fatal _ _ => some 1
  | .crash => some 1
  | .diverged => none
  | .finished st => some (if st.degraded then 1 else 0)

/-- Rows of a completed run. -/
def Outcome.rowsOf : Outcome → Option (List Row)
  | .finished st => some st.rows
  | _ => none

/-- Visited-folder-id set of a completed run. -/
def Outcome.foldersOf : Outcome → Option (List String)
  | .finished st => some st.folders
  | _ => none

/-- Effect trace of a run (fatal runs report the effects up to the
abort). -/
def Outcome.traceOf : Outcome → List Effect
  | .fatal _ t => t
  | .finished st => st.trace
  | _ => []

/-- Stdout of a completed run. -/
def Outcome.stdoutOf : Outcome → List String
  | .finished st => st.stdout
  | _ => []

/-- Stderr of a completed run. -/
def Outcome.stderrOf : Outcome → List String
  | .finished st => st.stderr
  | _ => []

/-- Degraded flag of a completed run. -/
def Outcome.degradedOf : Outcome → Option Bool
  | .finished st => some st.degraded
  | _ => none

/-- Root selection of the walk (`if folder_id: parent = … else: …`): with a
truthy folder restriction the root is `folders/{folder_id}` and the org
policy is NOT fetched; otherwise the root is the org's resource name and
the org policy is fetched and flattened first. -/
def preStep (env : Env) (orgId : String) (folderId : Option String)
    (orgName : String) : StepRes St :=
  if pyTruthy folderId then
    .ok { initSt with stack := ["folders/" ++ pyShow folderId] }
  else
    (orgPolicyStep env folderId orgId initSt).bind fun st =>
      .ok { st with stack := [orgName] }

/-- The whole `run(org_id, folder_id, outfile)` procedure: validate the
organization (an `HttpError` raises `SystemExit` before anything else),
drain the project listing, choose the walk root, walk the folder
hierarchy, join the projects against the final visited-folder-id set,
and write the report. -/
def run (env : Env) (orgId : String) (folderId : Option String)
    (fuel : Nat) : Outcome :=
  match env.org with
  | .error e => .fatal ("Error getting organization: " ++ e) [Effect.orgGet]
  | .ok org =>
    match (preStep env orgId folderId org.name).bind (walkLoop env fuel) with
    | .crash => .crash
    | .diverged => .diverged
    | .ok st =>
      let st := { st with stdout := st.stdout ++ ["Processing results..."] }
      match procProjects env orgId st.folders env.projects st with
      | .crash => .crash
      | .diverged => .diverged
      | .ok st => .finished (finalize st)

/-! ### Location-tagging invariant -/

/-- Exactly one of the three location columns of a row is non-empty. -/
def exactlyOneLoc (r : Row) : Prop :=
  (r.org_id ≠ "" ∧ r.folder_id = "" ∧ r.project_id = "") ∨
  (r.org_id = "" ∧ r.folder_id ≠ "" ∧ r.project_id = "") ∨
  (r.org_id = "" ∧ r.folder_id = "" ∧ r.project_id ≠ "")

instance decExactlyOneLoc (r : Row) : Decidable (exactlyOneLoc r) := by
  unfold exactlyOneLoc
  infer_instance

/-- All rows accumulated so far have exactly one populated location. -/
def rowsOK (st : St) : Prop := ∀ r ∈ st.rows, exactlyOneLoc r

/-- Well-formedness of a folder resource name as the walk consumes it:
whenever `fname.split('/')[1]` exists it is non-empty. -/
def fidWF (fname : String) : Prop :=
  ∀ cs, (pySplitAux '/' [] fname.data).get? 1 = some cs → cs ≠ []

/-- Data-model well-formedness of an environment (spec section 3: folder
resource names carry an identifier after `folders/`, project ids are
identifiers): ids extracted from listed folder names are non-empty, and
project ids are non-empty. -/
def envWF (env : Env) : Prop :=
  (∀ parent page pg, env.folderList parent page = .ok pg →
    ∀ f ∈ pg.folders, fidWF f) ∧
  (∀ p ∈ env.projects, p.projectId ≠ "")

/-! ### Concrete environments -/

/-- Selection predicate as the SPEC words it (for comparison with
`selected`, which is translated from the source): active, and parent in
the visited-folder set, or parent equal to the org id AND no folder
restriction was specified. -/
def specSelected (orgId : String) (folders : List String) (restricted : Bool)
    (p : ProjectRecord) : Bool :=
  (pyLower p.lifecycleState == "active") &&
    (optMemb p.parentId folders ||
      (p.parentId == some orgId && !restricted))

/-- A clean baseline hierarchy: org `123` with an org policy, one child
folder `folders/7` with a policy, and projects in several states. -/
def envClean : Env :=
  { org := .ok ⟨"organizations/123"⟩
  , projects := [⟨"p1", "ACTIVE", some "123"⟩, ⟨"p2", "DELETE_REQUESTED", some "7"⟩,
                 ⟨"p3", "active", some "7"⟩, ⟨"p4", "ACTIVE", none⟩]
  , orgPolicy := .ok ⟨[⟨"roles/owner", ["user:a@x.com", "group:g@x.com"]⟩]⟩
  , folderList := fun parent _ =>
      if parent = "organizations/123" then .ok ⟨["folders/7"], false⟩
      else .ok ⟨[], false⟩
  , folderPolicy := fun _ => .ok ⟨[⟨"roles/editor", ["user:f@x.com"]⟩]⟩
  , projectPolicy := fun _ => .ok ⟨[⟨"roles/viewer", ["user:b@x.com"]⟩]⟩ }

/-- Environment for the join counterexample: an active project parented
directly by the organization, while the walk is restricted to folder
`999` (which has no children). -/
def envJoin : Env :=
  { org := .ok ⟨"organizations/123"⟩
  , projects := [⟨"p1", "ACTIVE", some "123"⟩]
  , orgPolicy := .ok ⟨[⟨"roles/owner", ["user:o@x.com"]⟩]⟩
  , folderList := fun _ _ => .ok ⟨[], false⟩
  , folderPolicy := fun _ => .ok ⟨[]⟩
  , projectPolicy := fun _ => .ok ⟨[⟨"roles/viewer", ["user:b@x.com"]⟩]⟩ }

/-- Environment for the root-folder claim: restriction folder `999` has
its own policy binding and an active project parented directly by it. -/
def envRoot : Env :=
  { org := .ok ⟨"organizations/123"⟩
  , projects := [⟨"p9", "ACTIVE", some "999"⟩]
  , orgPolicy := .ok ⟨[⟨"roles/owner", ["user:o@x.com"]⟩]⟩
  , folderList := fun _ _ => .ok ⟨[], false⟩
  , folderPolicy := fun _ => .ok ⟨[⟨"roles/owner", ["user:r@x.com"]⟩]⟩
  , projectPolicy := fun _ => .ok ⟨[⟨"roles/viewer", ["user:b@x.com"]⟩]⟩ }

/-- Environment in which every child-folder listing fails persistently. -/
def envDiv : Env :=
  { org := .ok ⟨"organizations/123"⟩
  , projects := []
  , orgPolicy := .ok ⟨[]⟩
  , folderList := fun _ _ => .error "transport error"
  , folderPolicy := fun _ => .ok ⟨[]⟩
  , projectPolicy := fun _ => .ok ⟨[]⟩ }

/-- Environment whose organization lookup fails. -/
def envFatal : Env :=
  { org := .error "404"
  , projects := [⟨"p1", "ACTIVE", some "123"⟩]
  , orgPolicy := .ok ⟨[⟨"roles/owner", ["user:a@x.com"]⟩]⟩
  , folderList := fun _ _ => .ok ⟨[], false⟩
  , folderPolicy := fun _ => .ok ⟨[]⟩
  , projectPolicy := fun _ => .ok ⟨[]⟩ }

/-- Environment whose org policy contains a member string with no colon. -/
def envBadMember : Env :=
  { org := .ok ⟨"organizations/123"⟩
  , projects := []
  , orgPolicy := .ok ⟨[⟨"roles/owner", ["badmember"]⟩]⟩
  , folderList := fun _ _ => .ok ⟨[], false⟩
  , folderPolicy := fun _ => .ok ⟨[]⟩
  , projectPolicy := fun _ => .ok ⟨[]⟩ }

/-- Environment in which the policy fetch of folder `7` fails. -/
def envFolderPolicyErr : Env :=
  { org := .ok ⟨"organizations/123"⟩
  , projects := []
  , orgPolicy := .ok ⟨[]⟩
  , folderList := fun parent _ =>
      if parent = "organizations/123" then .ok ⟨["folders/7"], false⟩
      else .ok ⟨[], false⟩
  , folderPolicy := fun _ => .error "boom"
  , projectPolicy := fun _ => .ok ⟨[]⟩ }

/-- Environment in which the organization-policy fetch (taken when no
folder restriction is given) fails. -/
def envOrgPolicyErr : Env :=
  { org := .ok ⟨"organizations/123"⟩
  , projects := []
  , orgPolicy := .error "denied"
  , folderList := fun _ _ => .ok ⟨[], false⟩
  , folderPolicy := fun _ => .ok ⟨[]⟩
  , projectPolicy := fun _ => .ok ⟨[]⟩ }

/-! ### Facts about the member-string split -/

theorem pySplitAux_length (sep : Char) (l : List Char) :
    ∀ acc, (pySplitAux sep acc l).length = l.count sep + 1 := by
  induction l with
  | nil => intro acc; simp [pySplitAux]
  | cons c cs ih =>
    intro acc
    by_cases h : c = sep
    · subst h
      simp [pySplitAux, ih, List.count_cons]
    · simp [pySplitAux, h, ih, List.count_cons]

theorem pySplitAux_not_mem (sep : Char) (l : List Char) (h : sep ∉ l) :
    ∀ acc, pySplitAux sep acc l = [acc.reverse ++ l] := by
  induction l with
  | nil => intro acc; simp [pySplitAux]
  | cons c cs ih =>
    intro acc
    have hc : c ≠ sep := fun hcs => h (hcs ▸ List.mem_cons_self c cs)
    have hcs : sep ∉ cs := fun hm => h (List.mem_cons_of_mem c hm)
    simp [pySplitAux, hc, ih hcs]

theorem pySplitAux_append (sep : Char) (xs ys : List Char) (h : sep ∉ xs) :
    ∀ acc, pySplitAux sep acc (xs ++ sep :: ys) =
      (acc.reverse ++ xs) :: pySplitAux sep [] ys := by
  induction xs with
  | nil => intro acc; simp [pySplitAux]
  | cons c cs ih =>
    intro acc
    have hc : c ≠ sep := fun hcs => h (hcs ▸ List.mem_cons_self c cs)
    have hcs : sep ∉ cs := fun hm => h (List.mem_cons_of_mem c hm)
    simp [pySplitAux, hc, ih hcs]

theorem splitMember_isSome (s : String) :
    (splitMember s).isSome = true ↔ s.data.count ':' = 1 := by
  have hl := pySplitAux_length ':' s.data []
  unfold splitMember
  rcases hsp : pySplitAux ':' [] s.data with _ | ⟨a, _ | ⟨b, _ | ⟨c, l⟩⟩⟩
  · rw [hsp] at hl; simp_all
  · rw [hsp] at hl; simp_all
  · rw [hsp] at hl; simp_all
  · rw [hsp] at hl; simp_all; omega

theorem splitMember_eq (s t m : String)
    (hs : s.data = t.data ++ ':' :: m.data)
    (ht : ':' ∉ t.data) (hm : ':' ∉ m.data) :
    splitMember s = some (t, m) := by
  unfold splitMember
  rw [hs, pySplitAux_append ':' t.data m.data ht, pySplitAux_not_mem ':' m.data hm]
  rfl

/-! ### Facts about the flattener -/

theorem flattenBinding_length (role : String) (loc : Loc) (ms : List String) :
    ∀ rs, flattenBinding role loc ms = some rs → rs.length = ms.length := by
  induction ms with
  | nil => intro rs h; simp [flattenBinding] at h; simp [← h]
  | cons m ms ih =>
    intro rs h
    unfold flattenBinding at h
    rcases h1 : splitMember m with _ | ⟨t, i⟩ <;> rw [h1] at h
    · simp at h
    · rcases h2 : flattenBinding role loc ms with _ | rest <;> rw [h2] at h
      · simp at h
      · simp at h
        rw [← h]
        simp [ih rest h2]

theorem flattenPolicy_length (loc : Loc) (bs : List Binding) :
    ∀ rs, flattenPolicy loc bs = some rs →
      rs.length = (bs.map (fun b => b.members.length)).sum := by
  induction bs with
  | nil => intro rs h; simp [flattenPolicy] at h; simp [← h]
  | cons b bs ih =>
    intro rs h
    unfold flattenPolicy at h
    rcases h1 : flattenBinding b.role loc b.members with _ | r <;> rw [h1] at h
    · simp at h
    · rcases h2 : flattenPolicy loc bs with _ | rest <;> rw [h2] at h
      · simp at h
      · simp at h
        rw [← h]
        simp [flattenBinding_length b.role loc b.members r h1, ih rest h2]

theorem flattenBinding_isSome (role : String) (loc : Loc) (ms : List String)
    (h : ∀ m ∈ ms, (splitMember m).isSome = true) :
    (flattenBinding role loc ms).isSome = true := by
  induction ms with
  | nil => simp [flattenBinding]
  | cons m ms ih =>
    have h1 : (splitMember m).isSome = true := h m (List.mem_cons_self m ms)
    have h2 := ih (fun x hx => h x (List.mem_cons_of_mem m hx))
    unfold flattenBinding
    rcases hm : splitMember m with _ | ⟨t, i⟩
    · rw [hm] at h1; simp at h1
    · rcases hms : flattenBinding role loc ms with _ | rest
      · rw [hms] at h2; simp at h2
      · simp

theorem flattenPolicy_isSome (loc : Loc) (bs : List Binding)
    (h : ∀ b ∈ bs, ∀ m ∈ b.members, (splitMember m).isSome = true) :
    (flattenPolicy loc bs).isSome = true := by
  induction bs with
  | nil => simp [flattenPolicy]
  | cons b bs ih =>
    have h1 := flattenBinding_isSome b.role loc b.members
      (h b (List.mem_cons_self b bs))
    have h2 := ih (fun x hx => h x (List.mem_cons_of_mem b hx))
    unfold flattenPolicy
    rcases hb : flattenBinding b.role loc b.members with _ | r
    · rw [hb] at h1; simp at h1
    · rcases hbs : flattenPolicy loc bs with _ | rest
      · rw [hbs] at h2; simp at h2
      · simp

/-! ### Inversion of sequencing -/

theorem StepRes.bind_ok {α β : Type} (x : StepRes α) (f : α → StepRes β) (b : β)
    (h : x.bind f = .ok b) : ∃ a, x = .ok a ∧ f a = .ok b := by
  cases x with
  | ok a => exact ⟨a, rfl, h⟩
  | crash => simp [StepRes.bind] at h
  | diverged => simp [StepRes.bind] at h

/-! ### Degraded-flag monotonicity of the run pieces -/

theorem procFolder_mono (env : Env) (f : String) (st st' : St)
    (h : procFolder env f st = .ok st') (hd : st.degraded = true) :
    st'.degraded = true := by
  unfold procFolder at h
  split at h
  · simp at h
  · split at h
    · simp at h
      rw [← h]
    · dsimp only at h
      split at h
      · simp at h
      · simp at h
        rw [← h]
        exact hd

theorem procFolderList_mono (env : Env) (fs : List String) :
    ∀ st st', procFolderList env fs st = .ok st' → st.degraded = true →
      st'.degraded = true := by
  induction fs with
  | nil =>
    intro st st' h hd
    simp [procFolderList] at h
    rw [← h]; exact hd
  | cons f fs ih =>
    intro st st' h hd
    unfold procFolderList at h
    obtain ⟨st1, h1, h2⟩ := StepRes.bind_ok _ _ _ h
    exact ih st1 st' h2 (procFolder_mono env f st st1 h1 hd)

theorem pageLoop_mono (env : Env) (current : String) (fuel : Nat) :
    ∀ page st st', pageLoop env current page fuel st = .ok st' →
      st.degraded = true → st'.degraded = true := by
  induction fuel with
  | zero => intro page st st' h; simp [pageLoop] at h
  | succ fuel ih =>
    intro page st st' h hd
    unfold pageLoop at h
    dsimp only at h
    split at h
    · exact ih page _ st' h (by simp)
    · obtain ⟨st1, h1, h2⟩ := StepRes.bind_ok _ _ _ h
      have hd1 : st1.degraded = true :=
        procFolderList_mono env _ _ st1 h1 (by simpa using hd)
      split at h2
      · exact ih (page + 1) st1 st' h2 hd1
      · simp at h2; rw [← h2]; exact hd1

theorem walkLoop_mono (env : Env) (fuel : Nat) :
    ∀ st st', walkLoop env fuel st = .ok st' → st.degraded = true →
      st'.degraded = true := by
  induction fuel with
  | zero =>
    intro st st' h hd
    unfold walkLoop at h
    split at h
    · simp at h; rw [← h]; exact hd
    · simp at h
  | succ fuel ih =>
    intro st st' h hd
    unfold walkLoop at h
    split at h
    · simp at h; rw [← h]; exact hd
    · obtain ⟨st1, h1, h2⟩ := StepRes.bind_ok _ _ _ h
      exact ih st1 st' h2
        (pageLoop_mono env _ fuel 0 _ st1 h1 (by simpa using hd))

theorem procProject_mono (env : Env) (orgId : String) (folders : List String)
    (p : ProjectRecord) (st st' : St)
    (h : procProject env orgId folders p st = .ok st')
    (hd : st.degraded = true) : st'.degraded = true := by
  unfold procProject at h
  split at h
  · dsimp only at h
    split at h
    · simp at h; rw [← h]
    · split at h
      · simp at h
      · simp at h; rw [← h]; exact hd
  · simp at h; rw [← h]; exact hd

theorem procProjects_mono (env : Env) (orgId : String) (folders : List String)
    (ps : List ProjectRecord) :
    ∀ st st', procProjects env orgId folders ps st = .ok st' →
      st.degraded = true → st'.degraded = true := by
  induction ps with
  | nil =>
    intro st st' h hd
    simp [procProjects] at h
    rw [← h]; exact hd
  | cons p ps ih =>
    intro st st' h hd
    unfold procProjects at h
    obtain ⟨st1, h1, h2⟩ := StepRes.bind_ok _ _ _ h
    exact ih st1 st' h2 (procProject_mono env orgId folders p st st1 h1 hd)

/-! ### Failure branches set the degraded flag -/

theorem procFolder_error_degraded (env : Env) (f : String) (st st' : St) (e : String)
    (h : procFolder env f st = .ok st') (he : env.folderPolicy f = .error e) :
    st'.degraded = true := by
  unfold procFolder at h
  split at h
  · simp at h
  · split at h
    · simp at h
      rw [← h]
    · dsimp only at h
      rename_i heq
      rw [he] at heq
      simp at heq

theorem procProject_error_degraded (env : Env) (orgId : String)
    (folders : List String) (p : ProjectRecord) (st st' : St) (e : String)
    (h : procProject env orgId folders p st = .ok st')
    (hsel : selected orgId folders p = true)
    (he : env.projectPolicy p.projectId = .error e) : st'.degraded = true := by
  unfold procProject at h
  rw [hsel] at h
  simp only [if_true] at h
  split at h
  · simp at h; rw [← h]
  · rename_i heq
    rw [he] at heq
    simp at heq

theorem orgPolicyStep_error_degraded (env : Env) (folderId : Option String)
    (orgId : String) (st st' : St) (e : String)
    (h : orgPolicyStep env folderId orgId st = .ok st')
    (he : env.orgPolicy = .error e) : st'.degraded = true := by
  unfold orgPolicyStep at h
  dsimp only at h
  split at h
  · simp at h
    rw [← h]
  · rename_i heq
    rw [he] at heq
    simp at heq

theorem pageLoop_error_retry (env : Env) (current : String) (page fuel : Nat)
    (st : St) (e : String) (he : env.folderList current page = .error e) :
    pageLoop env current page (fuel + 1) st =
      pageLoop env current page fuel
        { st with degraded := true,
                  stdout := st.stdout ++ ["Getting folders..."],
                  stderr := st.stderr ++
                    ["Error getting child folders of \"" ++ current ++
                     "\": " ++ e],
                  trace := st.trace ++ [Effect.folderListCall current] } := by
  conv_lhs => unfold pageLoop
  dsimp only
  rw [he]

/-! ### Trace of the project join -/

theorem procProject_trace (env : Env) (orgId : String) (folders : List String)
    (p : ProjectRecord) (st st' : St)
    (h : procProject env orgId folders p st = .ok st') :
    st'.trace = st.trace ++
      (if selected orgId folders p then [Effect.projectPolicyGet p.projectId]
       else []) := by
  unfold procProject at h
  split at h
  · rename_i hsel
    rw [hsel]
    dsimp only at h
    split at h
    · simp at h; rw [← h]; simp
    · split at h
      · simp at h
      · simp at h; rw [← h]; simp
  · rename_i hsel
    rw [if_neg hsel]
    simp at h
    rw [← h]; simp

theorem procProjects_trace (env : Env) (orgId : String) (folders : List String)
    (ps : List ProjectRecord) :
    ∀ st st', procProjects env orgId folders ps st = .ok st' →
      st'.trace = st.trace ++
        (ps.filter (fun p => selected orgId folders p)).map
          (fun p => Effect.projectPolicyGet p.projectId) := by
  induction ps with
  | nil =>
    intro st st' h
    simp [procProjects] at h
    rw [← h]; simp
  | cons p ps ih =>
    intro st st' h
    unfold procProjects at h
    obtain ⟨st1, h1, h2⟩ := StepRes.bind_ok _ _ _ h
    have ht1 := procProject_trace env orgId folders p st st1 h1
    have ht2 := ih st1 st' h2
    rcases hsel : selected orgId folders p with _ | _ <;> rw [hsel] at ht1 <;>
      simp [List.filter_cons, hsel, ht2, ht1]

/-! ### Location-tagging invariant facts -/

theorem mkRow_exactlyOneLoc (mem typ role : String) (loc : Loc)
    (h : loc.locId ≠ "") : exactlyOneLoc (mkRow mem typ role loc) := by
  cases loc with
  | org i => exact Or.inl ⟨h, rfl, rfl⟩
  | folder i => exact Or.inr (Or.inl ⟨rfl, h, rfl⟩)
  | project i => exact Or.inr (Or.inr ⟨rfl, rfl, h⟩)

theorem flattenBinding_exactlyOneLoc (role : String) (loc : Loc)
    (ms : List String) (hloc : loc.locId ≠ "") :
    ∀ rs, flattenBinding role loc ms = some rs → ∀ r ∈ rs, exactlyOneLoc r := by
  induction ms with
  | nil =>
    intro rs h r hr
    simp [flattenBinding] at h
    rw [h] at hr
    simp at hr
  | cons m ms ih =>
    intro rs h
    unfold flattenBinding at h
    rcases h1 : splitMember m with _ | ⟨t, i⟩ <;> rw [h1] at h
    · simp at h
    · rcases h2 : flattenBinding role loc ms with _ | rest <;> rw [h2] at h
      · simp at h
      · simp at h
        intro r hr
        rw [← h] at hr
        rcases List.mem_cons.mp hr with hr1 | hr2
        · rw [hr1]; exact mkRow_exactlyOneLoc i t role loc hloc
        · exact ih rest h2 r hr2

theorem flattenPolicy_exactlyOneLoc (loc : Loc) (bs : List Binding)
    (hloc : loc.locId ≠ "") :
    ∀ rs, flattenPolicy loc bs = some rs → ∀ r ∈ rs, exactlyOneLoc r := by
  induction bs with
  | nil =>
    intro rs h r hr
    simp [flattenPolicy] at h
    rw [h] at hr
    simp at hr
  | cons b bs ih =>
    intro rs h
    unfold flattenPolicy at h
    rcases h1 : flattenBinding b.role loc b.members with _ | r1 <;> rw [h1] at h
    · simp at h
    · rcases h2 : flattenPolicy loc bs with _ | rest <;> rw [h2] at h
      · simp at h
      · simp at h
        intro r hr
        rw [← h] at hr
        rcases List.mem_append.mp hr with hr1 | hr2
        · exact flattenBinding_exactlyOneLoc b.role loc b.members hloc r1 h1 r hr1
        · exact ih rest h2 r hr2

theorem orgPolicyStep_rowsOK (env : Env) (folderId : Option String)
    (orgId : String) (st st' : St) (ho : orgId ≠ "")
    (h : orgPolicyStep env folderId orgId st = .ok st') (hr : rowsOK st) :
    rowsOK st' := by
  unfold orgPolicyStep at h
  dsimp only at h
  split at h
  · simp at h
    intro r hrr
    rw [← h] at hrr
    exact hr r hrr
  · split at h
    · simp at h
    · rename_i rs heq
      simp at h
      intro r hrr
      rw [← h] at hrr
      rcases List.mem_append.mp hrr with h1 | h2
      · exact hr r h1
      · exact flattenPolicy_exactlyOneLoc (.org orgId) _ ho rs heq r h2

theorem procFolder_rowsOK (env : Env) (f : String) (st st' : St)
    (hf : fidWF f) (h : procFolder env f st = .ok st') (hr : rowsOK st) :
    rowsOK st' := by
  unfold procFolder at h
  split at h
  · simp at h
  · rename_i fidChars heq
    have hfid : (⟨fidChars⟩ : String) ≠ "" := by
      intro hcon
      exact hf fidChars heq (by simpa using congrArg String.data hcon)
    split at h
    · simp at h
      intro r hrr
      rw [← h] at hrr
      exact hr r hrr
    · dsimp only at h
      split at h
      · simp at h
      · rename_i rs heq2
        simp at h
        intro r hrr
        rw [← h] at hrr
        rcases List.mem_append.mp hrr with h1 | h2
        · exact hr r h1
        · exact flattenPolicy_exactlyOneLoc (.folder ⟨fidChars⟩) _ hfid rs heq2 r h2

theorem procFolderList_rowsOK (env : Env) (fs : List String) :
    ∀ st st', (∀ f ∈ fs, fidWF f) → procFolderList env fs st = .ok st' →
      rowsOK st → rowsOK st' := by
  induction fs with
  | nil =>
    intro st st' _ h hr
    simp [procFolderList] at h
    rw [← h]; exact hr
  | cons f fs ih =>
    intro st st' hfs h hr
    unfold procFolderList at h
    obtain ⟨st1, h1, h2⟩ := StepRes.bind_ok _ _ _ h
    exact ih st1 st' (fun g hg => hfs g (List.mem_cons_of_mem f hg)) h2
      (procFolder_rowsOK env f st st1 (hfs f (List.mem_cons_self f fs)) h1 hr)

theorem pageLoop_rowsOK (env : Env) (current : String) (fuel : Nat)
    (henv : ∀ parent page pg, env.folderList parent page = .ok pg →
      ∀ f ∈ pg.folders, fidWF f) :
    ∀ page st st', pageLoop env current page fuel st = .ok st' →
      rowsOK st → rowsOK st' := by
  induction fuel with
  | zero => intro page st st' h; simp [pageLoop] at h
  | succ fuel ih =>
    intro page st st' h hr
    unfold pageLoop at h
    dsimp only at h
    split at h
    · exact ih page _ st' h (fun r hrr => hr r hrr)
    · rename_i pg heq
      obtain ⟨st1, h1, h2⟩ := StepRes.bind_ok _ _ _ h
      have hr1 : rowsOK st1 :=
        procFolderList_rowsOK env pg.folders _ st1
          (henv current page pg heq) h1 (fun r hrr => hr r hrr)
      split at h2
      · exact ih (page + 1) st1 st' h2 hr1
      · simp at h2; rw [← h2]; exact hr1

theorem walkLoop_rowsOK (env : Env) (fuel : Nat)
    (henv : ∀ parent page pg, env.folderList parent page = .ok pg →
      ∀ f ∈ pg.folders, fidWF f) :
    ∀ st st', walkLoop env fuel st = .ok st' → rowsOK st → rowsOK st' := by
  induction fuel with
  | zero =>
    intro st st' h hr
    unfold walkLoop at h
    split at h
    · simp at h; rw [← h]; exact hr
    · simp at h
  | succ fuel ih =>
    intro st st' h hr
    unfold walkLoop at h
    split at h
    · simp at h; rw [← h]; exact hr
    · obtain ⟨st1, h1, h2⟩ := StepRes.bind_ok _ _ _ h
      exact ih st1 st' h2
        (pageLoop_rowsOK env _ fuel henv 0 _ st1 h1 (fun r hrr => hr r hrr))

theorem procProject_rowsOK (env : Env) (orgId : String) (folders : List String)
    (p : ProjectRecord) (st st' : St) (hp : p.projectId ≠ "")
    (h : procProject env orgId folders p st = .ok st') (hr : rowsOK st) :
    rowsOK st' := by
  unfold procProject at h
  split at h
  · dsimp only at h
    split at h
    · simp at h
      intro r hrr
      rw [← h] at hrr
      exact hr r hrr
    · split at h
      · simp at h
      · rename_i rs heq
        simp at h
        intro r hrr
        rw [← h] at hrr
        rcases List.mem_append.mp hrr with h1 | h2
        · exact hr r h1
        · exact flattenPolicy_exactlyOneLoc (.project p.projectId) _ hp rs heq r h2
  · simp at h
    intro r hrr
    rw [← h] at hrr
    exact hr r hrr

theorem procProjects_rowsOK (env : Env) (orgId : String) (folders : List String)
    (ps : List ProjectRecord) :
    ∀ st st', (∀ p ∈ ps, p.projectId ≠ "") →
      procProjects env orgId folders ps st = .ok st' → rowsOK st → rowsOK st' := by
  induction ps with
  | nil =>
    intro st st' _ h hr
    simp [procProjects] at h
    rw [← h]; exact hr
  | cons p ps ih =>
    intro st st' hps h hr
    unfold procProjects at h
    obtain ⟨st1, h1, h2⟩ := StepRes.bind_ok _ _ _ h
    exact ih st1 st' (fun q hq => hps q (List.mem_cons_of_mem p hq)) h2
      (procProject_rowsOK env orgId folders p st st1
        (hps p (List.mem_cons_self p ps)) h1 hr)

theorem preStep_rowsOK (env : Env) (orgId : String) (folderId : Option String)
    (orgName : String) (st' : St) (ho : orgId ≠ "")
    (h : preStep env orgId folderId orgName = .ok st') : rowsOK st' := by
  unfold preStep at h
  split at h
  · simp at h
    intro r hrr
    rw [← h] at hrr
    simp [initSt] at hrr
  · obtain ⟨st1, h1, h2⟩ := StepRes.bind_ok _ _ _ h
    simp at h2
    have hok := orgPolicyStep_rowsOK env folderId orgId initSt st1 ho h1
      (fun r hrr => by simp [initSt] at hrr)
    intro r hrr
    rw [← h2] at hrr
    exact hok r hrr

theorem run_rowsOK (env : Env) (orgId : String) (folderId : Option String)
    (fuel : Nat) (st : St) (hwf : envWF env) (ho : orgId ≠ "")
    (h : run env orgId folderId fuel = .finished st) : rowsOK st := by
  unfold run at h
  split at h
  · simp at h
  · split at h
    · simp at h
    · simp at h
    · rename_i st1 heq1
      dsimp only at h
      split at h
      · simp at h
      · simp at h
      · rename_i st2 heq2
        simp at h
        obtain ⟨stA, hA, hB⟩ := StepRes.bind_ok _ _ _ heq1
        have hrA := preStep_rowsOK env orgId folderId _ stA ho hA
        have hr1 := walkLoop_rowsOK env fuel hwf.1 stA st1 hB hrA
        have hr2 := procProjects_rowsOK env orgId _ env.projects _ st2 hwf.2
          heq2 (fun r hrr => hr1 r hrr)
        intro r hrr
        rw [← h] at hrr
        exact hr2 r hrr

/-! ### Divergence of a persistently failing listing -/

theorem pageLoop_error_diverges (env : Env) (current : String) (e : String)
    (he : ∀ page, env.folderList current page = .error e) :
    ∀ fuel page st, pageLoop env current page fuel st = .diverged := by
  intro fuel
  induction fuel with
  | zero => intro page st; rfl
  | succ fuel ih =>
    intro page st
    unfold pageLoop
    dsimp only
    rw [he page]
    exact ih page _

theorem fidWF_of_concrete (fname : String) (cs0 : List Char)
    (h : (pySplitAux '/' [] fname.data).get? 1 = some cs0) (h0 : cs0 ≠ []) :
    fidWF fname := by
  intro cs hcs
  rw [h] at hcs
  injection hcs with h2
  rw [← h2]
  exact h0

theorem envClean_wf : envWF envClean := by
  constructor
  · intro parent page pg h f hf
    unfold envClean at h
    dsimp only at h
    split at h
    · cases h
      simp at hf
      subst hf
      exact fidWF_of_concrete "folders/7" ['7'] rfl (by decide)
    · cases h
      simp at hf
  · decide

/-! ### The claims -/

/-- Claim C1 (amended): a project is selected for policy lookup iff its
lifecycle state (lower-cased) is `active` and its parent id equals the
organization id or is a member of the visited-folder-id set — with NO
dependence on the folder-restriction flag: the trace of the project join
contains exactly the policy fetches of the projects satisfying that
predicate, and an active org-parented project is selected in every run,
restriction or not. -/
theorem claim_C1_join_amended :
    (∀ env orgId folders ps st st',
      procProjects env orgId folders ps st = .ok st' →
      st'.trace = st.trace ++
        (ps.filter (fun p => (pyLower p.lifecycleState == "active") &&
            (p.parentId == some orgId || optMemb p.parentId folders))).map
          (fun p => Effect.projectPolicyGet p.projectId)) ∧
    (∀ orgId folders p, (pyLower p.lifecycleState == "active") = true →
      p.parentId = some orgId → selected orgId folders p = true) := by
  constructor
  · intro env orgId folders ps st st' h
    exact procProjects_trace env orgId folders ps st st' h
  · intro orgId folders p h1 h2
    simp [selected, h1, h2]

/-- Witness for C1 at a concrete input: an active project parented
directly by the organization is selected. -/
theorem claim_C1_join_amended_witness :
    selected "123" ["999"] ⟨"p1", "ACTIVE", some "123"⟩ = true :=
  claim_C1_join_amended.2 "123" ["999"] ⟨"p1", "ACTIVE", some "123"⟩
    (by decide) rfl

/-- Claim C1 as stated is false on the code: under folder restriction
`-f 999` (final visited-folder set empty), the active project `p1`
parented directly by the organization IS selected — its policy is
fetched and its row emitted — although the claim's condition
(parent in F, or parent = org AND no restriction) is false there. -/
theorem claim_C1_join_counterexample :
    selected "123" [] ⟨"p1", "ACTIVE", some "123"⟩ = true ∧
    specSelected "123" [] true ⟨"p1", "ACTIVE", some "123"⟩ = false ∧
    Effect.projectPolicyGet "p1" ∈
      Outcome.traceOf (run envJoin "123" (some "999") 10) ∧
    Outcome.rowsOf (run envJoin "123" (some "999") 10) =
      some [⟨"b@x.com", "user", "roles/viewer", "", "", "p1"⟩] := by
  refine ⟨by decide, by decide, by decide, by decide⟩

/-- Claim C2 is violated by the code (code bug): restricting to folder
`999` — which has its own policy binding and an active project `p9`
parented directly by it — the finished run has an empty visited-folder
set and zero rows: the walk never adds the root folder to the visited
set and never fetches its policy, so `p9` is excluded by the join (the
org policy is, as specified, not fetched either). -/
theorem claim_C2_root_folder_excluded :
    Outcome.foldersOf (run envRoot "123" (some "999") 10) = some [] ∧
    Outcome.rowsOf (run envRoot "123" (some "999") 10) = some [] ∧
    Effect.folderPolicyGet "folders/999" ∉
      Outcome.traceOf (run envRoot "123" (some "999") 10) ∧
    Effect.projectPolicyGet "p9" ∉
      Outcome.traceOf (run envRoot "123" (some "999") 10) ∧
    Effect.orgPolicyGet ∉ Outcome.traceOf (run envRoot "123" (some "999") 10) := by
  refine ⟨by decide, by decide, by decide, by decide, by decide⟩

/-- Claim C3 is violated by the code (code bug): when the child-folder
listing of the walk root fails on every attempt, the `continue` in the
pagination loop retries the same request forever — for EVERY fuel bound
the run diverges, instead of terminating and continuing with the
remaining stack entries. -/
theorem claim_C3_walk_diverges :
    ∀ fuel, run envDiv "123" none fuel = .diverged := by
  have hpage : ∀ f page st, pageLoop envDiv "organizations/123" page f st = .diverged :=
    pageLoop_error_diverges envDiv "organizations/123" "transport error"
      (fun _ => rfl)
  have hwalk : ∀ f (st : St), st.stack = ["organizations/123"] →
      walkLoop envDiv f st = .diverged := by
    intro f st hs
    cases f with
    | zero =>
      unfold walkLoop
      rw [hs]
    | succ f =>
      unfold walkLoop
      rw [hs]
      dsimp only [StepRes.bind]
      rw [hpage f 0 _]
  intro fuel
  obtain ⟨st0, h1, h2⟩ :
      ∃ st0, preStep envDiv "123" none "organizations/123" = .ok st0 ∧
        st0.stack = ["organizations/123"] := ⟨_, rfl, rfl⟩
  unfold run
  rw [show envDiv.org = Except.ok ⟨"organizations/123"⟩ from rfl]
  dsimp only
  rw [h1]
  dsimp only [StepRes.bind]
  rw [hwalk fuel st0 h2]

/-- Claim C4: the degraded flag starts clean, each of the four
recoverable-failure kinds transitions it to degraded — folder-policy
fetch, project-policy fetch, org-policy fetch, and folder listing (whose
error branch hands a degraded state to the retried request; a concrete
org-policy-failure run also finishes degraded with exit 1) — it is
monotone across the walk and the project join, and the exit status of
`sys.exit(run(...))` is zero exactly when the run finished clean (the
fatal abort also exits non-zero). -/
theorem claim_C4_degraded_monotone :
    (∀ env orgId folderId fuel,
      Outcome.exitCodeOf (run env orgId folderId fuel) = some 0 ↔
      Outcome.degradedOf (run env orgId folderId fuel) = some false) ∧
    initSt.degraded = false ∧
    (∀ env fuel st st', walkLoop env fuel st = .ok st' →
      st.degraded = true → st'.degraded = true) ∧
    (∀ env orgId folders ps st st',
      procProjects env orgId folders ps st = .ok st' →
      st.degraded = true → st'.degraded = true) ∧
    (∀ env f st st' e, procFolder env f st = .ok st' →
      env.folderPolicy f = .error e → st'.degraded = true) ∧
    (∀ env orgId folders p st st' e,
      procProject env orgId folders p st = .ok st' →
      selected orgId folders p = true →
      env.projectPolicy p.projectId = .error e → st'.degraded = true) ∧
    (∀ env folderId orgId st st' e,
      orgPolicyStep env folderId orgId st = .ok st' →
      env.orgPolicy = .error e → st'.degraded = true) ∧
    (∀ env current page fuel st e,
      env.folderList current page = .error e →
      pageLoop env current page (fuel + 1) st =
        pageLoop env current page fuel
          { st with degraded := true,
                    stdout := st.stdout ++ ["Getting folders..."],
                    stderr := st.stderr ++
                      ["Error getting child folders of \"" ++ current ++
                       "\": " ++ e],
                    trace := st.trace ++ [Effect.folderListCall current] }) ∧
    (Outcome.degradedOf (run envOrgPolicyErr "123" none 10) = some true ∧
      Outcome.exitCodeOf (run envOrgPolicyErr "123" none 10) = some 1) ∧
    (∀ m tr, Outcome.exitCodeOf (.fatal m tr) = some 1) := by
  refine ⟨?_, rfl, ?_, ?_, ?_, ?_, ?_, ?_, by decide, fun m tr => rfl⟩
  · intro env orgId folderId fuel
    rcases run env orgId folderId fuel with ⟨m, tr⟩ | _ | _ | st
    · simp [Outcome.exitCodeOf, Outcome.degradedOf]
    · simp [Outcome.exitCodeOf, Outcome.degradedOf]
    · simp [Outcome.exitCodeOf, Outcome.degradedOf]
    · rcases hd : st.degraded with _ | _ <;>
        simp [Outcome.exitCodeOf, Outcome.degradedOf, hd]
  · exact fun env fuel st st' h hd => walkLoop_mono env fuel st st' h hd
  · exact fun env orgId folders ps st st' h hd =>
      procProjects_mono env orgId folders ps st st' h hd
  · exact fun env f st st' e h he => procFolder_error_degraded env f st st' e h he
  · exact fun env orgId folders p st st' e h hs he =>
      procProject_error_degraded env orgId folders p st st' e h hs he
  · exact fun env folderId orgId st st' e h he =>
      orgPolicyStep_error_degraded env folderId orgId st st' e h he
  · exact fun env current page fuel st e he =>
      pageLoop_error_retry env current page fuel st e he

/-- Witness for C4 at concrete inputs: the exit-code equivalence at a
concrete clean run, flag preservation through a concrete (empty) project
join started degraded, and the transition to degraded at a concrete
failing org-policy fetch. -/
theorem claim_C4_degraded_monotone_witness :
    (Outcome.exitCodeOf (run envClean "123" none 10) = some 0 ↔
      Outcome.degradedOf (run envClean "123" none 10) = some false) ∧
    ({ initSt with degraded := true } : St).degraded = true ∧
    (⟨true, [], [], [], ["Validating organization...", "Getting projects..."],
      ["Error getting org folder \"None\" IAM policy: denied"],
      [Effect.orgGet, Effect.projList, Effect.orgPolicyGet]⟩ : St).degraded
      = true :=
  ⟨claim_C4_degraded_monotone.1 envClean "123" none 10,
   claim_C4_degraded_monotone.2.2.2.1 envClean "123" [] []
     { initSt with degraded := true } { initSt with degraded := true } rfl rfl,
   claim_C4_degraded_monotone.2.2.2.2.2.2.1 envOrgPolicyErr none "123" initSt
     ⟨true, [], [], [], ["Validating organization...", "Getting projects..."],
      ["Error getting org folder \"None\" IAM policy: denied"],
      [Effect.orgGet, Effect.projList, Effect.orgPolicyGet]⟩ "denied" rfl rfl⟩

/-- Claim C5: if the organization lookup fails, the run aborts with the
fatal message before anything else — exit status 1, no policy of any
kind fetched, no output file opened, no rows produced. -/
theorem claim_C5_fatal_short_circuit (env : Env) (orgId : String)
    (folderId : Option String) (fuel : Nat) (e : String)
    (h : env.org = .error e) :
    run env orgId folderId fuel =
      .fatal ("Error getting organization: " ++ e) [Effect.orgGet] ∧
    Outcome.exitCodeOf (run env orgId folderId fuel) = some 1 ∧
    Effect.fileOpen ∉ Outcome.traceOf (run env orgId folderId fuel) ∧
    (∀ pid, Effect.projectPolicyGet pid ∉
      Outcome.traceOf (run env orgId folderId fuel)) ∧
    (∀ f, Effect.folderPolicyGet f ∉
      Outcome.traceOf (run env orgId folderId fuel)) ∧
    Effect.orgPolicyGet ∉ Outcome.traceOf (run env orgId folderId fuel) ∧
    Outcome.rowsOf (run env orgId folderId fuel) = none := by
  have hrun : run env orgId folderId fuel =
      .fatal ("Error getting organization: " ++ e) [Effect.orgGet] := by
    unfold run
    rw [h]
  rw [hrun]
  refine ⟨rfl, rfl, by simp [Outcome.traceOf], fun pid => by simp [Outcome.traceOf],
    fun f => by simp [Outcome.traceOf], by simp [Outcome.traceOf], rfl⟩

/-- Witness for C5 at a concrete input. -/
theorem claim_C5_fatal_short_circuit_witness :
    run envFatal "123" none 5 =
      .fatal "Error getting organization: 404" [Effect.orgGet] :=
  (claim_C5_fatal_short_circuit envFatal "123" none 5 "404" rfl).1

/-- Claim C6: a member string parses (and flattens to a row carrying the
identifier and the type) iff it contains exactly one colon; any other
member string makes the split fail, which crashes the whole run as an
unhandled error — the outcome is `crash`, not a finished degraded run. -/
theorem claim_C6_member_parsing :
    (∀ s : String, (splitMember s).isSome = true ↔ s.data.count ':' = 1) ∧
    (∀ role loc (s t m : String), s.data = t.data ++ ':' :: m.data →
      ':' ∉ t.data → ':' ∉ m.data →
      flattenBinding role loc [s] = some [mkRow m t role loc]) ∧
    run envBadMember "123" none 10 = .crash := by
  refine ⟨splitMember_isSome, ?_, by decide⟩
  intro role loc s t m hs ht hm
  unfold flattenBinding
  rw [splitMember_eq s t m hs ht hm]
  rfl

/-- Witness for C6 at a concrete member string. -/
theorem claim_C6_member_parsing_witness :
    flattenBinding "roles/owner" (Loc.org "123") ["user:alice"] =
      some [mkRow "alice" "user" "roles/owner" (Loc.org "123")] :=
  claim_C6_member_parsing.2.1 "roles/owner" (Loc.org "123") "user:alice"
    "user" "alice" (by decide) (by decide) (by decide)

/-- Claim C7 is violated by the code (code bug): the folder-policy-fetch
failure message is printed WITHOUT `file=sys.stderr`, so it appears on
stdout and the error stream stays empty — while the run does degrade,
continue and exit non-zero as specified. -/
theorem claim_C7_folder_policy_error_stream :
    "Error getting folder \"7 IAM: boom" ∈
      Outcome.stdoutOf (run envFolderPolicyErr "123" none 10) ∧
    "Error getting folder \"7 IAM: boom" ∉
      Outcome.stderrOf (run envFolderPolicyErr "123" none 10) ∧
    Outcome.stderrOf (run envFolderPolicyErr "123" none 10) = [] ∧
    Outcome.degradedOf (run envFolderPolicyErr "123" none 10) = some true ∧
    Outcome.exitCodeOf (run envFolderPolicyErr "123" none 10) = some 1 := by
  refine ⟨by decide, by decide, by decide, by decide, by decide⟩

/-- Claim C8: the flattened row count equals the sum over bindings of
their member counts; an empty policy or an empty member list contributes
zero rows; and flattening cannot fail on well-formed input (every member
string containing exactly one colon). -/
theorem claim_C8_flatten_cardinality :
    (∀ loc bs rs, flattenPolicy loc bs = some rs →
      rs.length = (bs.map (fun b => b.members.length)).sum) ∧
    (∀ loc, flattenPolicy loc [] = some []) ∧
    (∀ role loc, flattenBinding role loc [] = some []) ∧
    (∀ loc bs, (∀ b ∈ bs, ∀ m ∈ b.members, m.data.count ':' = 1) →
      (flattenPolicy loc bs).isSome = true) := by
  refine ⟨?_, fun loc => rfl, fun role loc => rfl, ?_⟩
  · exact fun loc bs rs h => flattenPolicy_length loc bs rs h
  · intro loc bs h
    exact flattenPolicy_isSome loc bs
      (fun b hb m hm => (splitMember_isSome m).mpr (h b hb m hm))

/-- Witness for C8 at a concrete policy. -/
theorem claim_C8_flatten_cardinality_witness :
    ([mkRow "a@x.com" "user" "roles/owner" (Loc.org "123"),
      mkRow "g@x.com" "group" "roles/owner" (Loc.org "123")] : List Row).length =
      ([Binding.mk "roles/owner" ["user:a@x.com", "group:g@x.com"]].map
        (fun b => b.members.length)).sum :=
  claim_C8_flatten_cardinality.1 (Loc.org "123")
    [Binding.mk "roles/owner" ["user:a@x.com", "group:g@x.com"]]
    [mkRow "a@x.com" "user" "roles/owner" (Loc.org "123"),
     mkRow "g@x.com" "group" "roles/owner" (Loc.org "123")] (by decide)

/-- Claim C9: in every finished run over a well-formed environment (with
a non-empty organization id), every emitted row has exactly one
non-empty field among org_id, folder_id and project_id. -/
theorem claim_C9_location_exclusivity (env : Env) (orgId : String)
    (folderId : Option String) (fuel : Nat) (hwf : envWF env)
    (ho : orgId ≠ "") :
    ∀ r ∈ (Outcome.rowsOf (run env orgId folderId fuel)).getD [],
      exactlyOneLoc r := by
  intro r hr
  rcases hout : run env orgId folderId fuel with _ | _ | _ | st <;>
    rw [hout] at hr
  · simp [Outcome.rowsOf] at hr
  · simp [Outcome.rowsOf] at hr
  · simp [Outcome.rowsOf] at hr
  · simp [Outcome.rowsOf] at hr
    exact run_rowsOK env orgId folderId fuel st hwf ho hout r hr

/-- Witness for C9 at a concrete run: the folder row of the clean
baseline environment. -/
theorem claim_C9_location_exclusivity_witness :
    exactlyOneLoc ⟨"f@x.com", "user", "roles/editor", "", "7", ""⟩ :=
  claim_C9_location_exclusivity envClean "123" none 10 envClean_wf
    (by decide) ⟨"f@x.com", "user", "roles/editor", "", "7", ""⟩ (by decide)

/-- Claim C10: an active project with no parent reference is never
selected — the selection predicate is false on it and the project step
leaves the state completely untouched (no fetch, no rows, no error). -/
theorem claim_C10_parentless_excluded (env : Env) (orgId : String)
    (folders : List String) (p : ProjectRecord) (st : St)
    (h : p.parentId = none) :
    procProject env orgId folders p st = .ok st ∧
    selected orgId folders p = false := by
  have hsel : selected orgId folders p = false := by
    simp [selected, h, optMemb]
  exact ⟨by simp [procProject, hsel], hsel⟩

/-- Witness for C10 at a concrete parentless project. -/
theorem claim_C10_parentless_excluded_witness :
    procProject envClean "123" ["7"] ⟨"p4", "ACTIVE", none⟩ initSt =
      .ok initSt ∧
    selected "123" ["7"] ⟨"p4", "ACTIVE", none⟩ = false :=
  claim_C10_parentless_excluded envClean "123" ["7"] ⟨"p4", "ACTIVE", none⟩
    initSt rfl

end IamReport
